import Mathlib

/-!
Verification of the front-matter reconciliation and cover-image scripts
(`.github/scripts/generate_cover_images.py` and
`.github/scripts/update_frontmatter.py`).

Text is modelled as `List Char` (Python `str`, ASCII fragment relevant to the
claims).  YAML values are modelled by the inductive `Yaml`; the external
ruamel.yaml parser and dumper are parameters (`parse`, `dump`) of the embedded
functions, since they are library code, not code of this repository.  Python
exceptions are modelled with `Except PyErr`.
-/

abbrev Str := List Char

/-- Python exception kinds that the embedded code can raise. -/
inductive PyErr where
  | typeError
  | attrError
  | valueError
  | yamlError
deriving DecidableEq, Repr

/-- ASCII fragment of Python `\s` / `str.strip` whitespace. -/
def isPySpace (c : Char) : Bool :=
  c = ' ' || c = '\t' || c = '\n' || c = '\r' || c = '\x0b' || c = '\x0c'

def isAsciiUpperA (c : Char) : Bool := 65 ≤ c.toNat && c.toNat ≤ 90
def isAsciiLowerA (c : Char) : Bool := 97 ≤ c.toNat && c.toNat ≤ 122
def isAsciiDigitA (c : Char) : Bool := 48 ≤ c.toNat && c.toNat ≤ 57
def isAsciiAlphaA (c : Char) : Bool := isAsciiUpperA c || isAsciiLowerA c
def isAsciiAlnumA (c : Char) : Bool := isAsciiAlphaA c || isAsciiDigitA c

/-- A character that is a lower-case ASCII letter or an ASCII digit. -/
def isLowerAlnumA (c : Char) : Bool := isAsciiLowerA c || isAsciiDigitA c

/-- Python `str.lower` on one character (ASCII fragment). -/
def toLowerA (c : Char) : Char :=
  if h : 65 ≤ c.toNat ∧ c.toNat ≤ 90 then
    Char.ofNatAux (c.toNat + 32) (Or.inl (by omega))
  else c

/-- Python `str.upper` on one character (ASCII fragment). -/
def toUpperA (c : Char) : Char :=
  if h : 97 ≤ c.toNat ∧ c.toNat ≤ 122 then
    Char.ofNatAux (c.toNat - 32) (Or.inl (by omega))
  else c

/-- Python `str.strip()` (ASCII whitespace fragment). -/
def pyStrip (s : Str) : Str :=
  ((s.dropWhile isPySpace).reverse.dropWhile isPySpace).reverse

/-- Python `str.isupper()` (ASCII fragment): at least one cased character and
no lower-case character. -/
def pyIsUpper (s : Str) : Bool :=
  s.any isAsciiAlphaA && s.all (fun c => !isAsciiLowerA c)

/-- Python `str.isdigit()` (ASCII fragment). -/
def pyIsDigit (s : Str) : Bool :=
  !s.isEmpty && s.all isAsciiDigitA

/-- Python `str.title()` (ASCII fragment): a letter after a letter is lowered,
a letter after a non-letter is raised. -/
def pyTitleAux : Bool → Str → Str
  | _, [] => []
  | prevAlpha, c :: cs =>
    if isAsciiAlphaA c then
      (if prevAlpha then toLowerA c else toUpperA c) :: pyTitleAux true cs
    else
      c :: pyTitleAux false cs

def pyTitle (s : Str) : Str := pyTitleAux false s

/-- Python `str.capitalize()` (ASCII fragment). -/
def pyCapitalize : Str → Str
  | [] => []
  | c :: cs => toUpperA c :: cs.map toLowerA

/-- Python `str.split()` with no arguments: split on whitespace runs,
dropping empty pieces. -/
def pySplitWsAux : Str → Str → List Str
  | [], acc => if acc.isEmpty then [] else [acc.reverse]
  | c :: cs, acc =>
    if isPySpace c then
      if acc.isEmpty then pySplitWsAux cs [] else acc.reverse :: pySplitWsAux cs []
    else pySplitWsAux cs (c :: acc)

def pySplitWs (s : Str) : List Str := pySplitWsAux s []

/-- Python `str.replace(a, b)` for single characters. -/
def pyReplaceChar (a b : Char) (s : Str) : Str :=
  s.map (fun c => if c = a then b else c)

/-- `pathlib.PurePath.name`: the part after the last `/`. -/
def pathName (p : Str) : Str := (p.splitOn '/').getLastD []

/-- Index of the last `.` in `n`, if any. -/
def lastDotIdx (n : Str) : Option Nat :=
  match n.reverse.findIdx? (· = '.') with
  | some k => some (n.length - 1 - k)
  | none => none

/-- `pathlib.PurePath.stem`: the final component without its suffix.  The
suffix starts at the last dot `i` only when `0 < i < len - 1`. -/
def pyStem (p : Str) : Str :=
  let n := pathName p
  match lastDotIdx n with
  | some i => if 0 < i ∧ i + 1 < n.length then n.take i else n
  | none => n

/-- Python truthiness of an optional string argument (`None` and `""` are
falsy). -/
def optFalsy : Option Str → Bool
  | none => true
  | some s => s.isEmpty

/-! ## YAML value model

The external ruamel.yaml library is not code of this repository; its parse and
dump are passed as parameters to the embedded functions.  Mapped values are
modelled by `Yaml`; mappings are insertion-ordered association lists, matching
Python `dict` semantics. -/

inductive Yaml where
  | ystr (s : Str)
  | ybool (b : Bool)
  | yint (n : Int)
  | ynull
  | ymap (kvs : List (String × Yaml))

/-- Python `v == s` where `s` is a `str`: true only for an equal string (no
cross-type equality for the values occurring here). -/
def optEqStr (v : Option Yaml) (s : Str) : Bool :=
  match v with
  | some (.ystr t) => t == s
  | _ => false

/-- Python truthiness of a YAML value. -/
def yamlTruthy : Yaml → Bool
  | .ystr s => !s.isEmpty
  | .ybool b => b
  | .yint n => n ≠ 0
  | .ynull => false
  | .ymap m => !m.isEmpty

/-- Python truthiness of `dict.get`'s result (`None` when the key is
absent). -/
def optTruthy : Option Yaml → Bool
  | none => false
  | some v => yamlTruthy v

/-- Python `dict.get`. -/
def mapGet (m : List (String × Yaml)) (k : String) : Option Yaml :=
  match m with
  | [] => none
  | (k1, v) :: t => if k1 = k then some v else mapGet t k

/-- Python `dict` item assignment: overwrite in place, else append (insertion
order preserved). -/
def mapSet (m : List (String × Yaml)) (k : String) (v : Yaml) :
    List (String × Yaml) :=
  match m with
  | [] => [(k, v)]
  | (k1, v1) :: t => if k1 = k then (k1, v) :: t else (k1, v1) :: mapSet t k v

/-- Python `dict.setdefault`: insert only when the key is absent. -/
def mapSetdefault (m : List (String × Yaml)) (k : String) (v : Yaml) :
    List (String × Yaml) :=
  if (mapGet m k).isSome then m else m ++ [(k, v)]

theorem mapGet_mapSet_self (m : List (String × Yaml)) (k : String) (v : Yaml) :
    mapGet (mapSet m k v) k = some v := by
  induction m with
  | nil => simp [mapSet, mapGet]
  | cons h t ih =>
    obtain ⟨k1, v1⟩ := h
    by_cases hk : k1 = k <;> simp [mapSet, mapGet, hk, ih]

theorem mapGet_mapSet_ne (m : List (String × Yaml)) (k k1 : String) (v : Yaml)
    (h : k ≠ k1) : mapGet (mapSet m k v) k1 = mapGet m k1 := by
  induction m with
  | nil => simp [mapSet, mapGet, h]
  | cons hd t ih =>
    obtain ⟨k2, v2⟩ := hd
    by_cases hk : k2 = k
    · subst hk
      simp [mapSet, mapGet, h]
    · simp [mapSet, mapGet, hk, ih]

theorem mapGet_append_single_ne (m : List (String × Yaml)) (k k1 : String)
    (v : Yaml) (h : k ≠ k1) :
    mapGet (m ++ [(k, v)]) k1 = mapGet m k1 := by
  induction m with
  | nil => simp [mapGet, h]
  | cons hd t ih =>
    obtain ⟨k2, v2⟩ := hd
    by_cases hk : k2 = k1 <;> simp [mapGet, hk, ih]

theorem mapGet_setdefault_ne (m : List (String × Yaml)) (k k1 : String)
    (v : Yaml) (h : k ≠ k1) :
    mapGet (mapSetdefault m k v) k1 = mapGet m k1 := by
  unfold mapSetdefault
  split
  · rfl
  · exact mapGet_append_single_ne m k k1 v h

theorem mapGet_setdefault_present (m : List (String × Yaml)) (k : String)
    (v : Yaml) (h : (mapGet m k).isSome) : mapSetdefault m k v = m := by
  simp [mapSetdefault, h]

theorem mapGet_setdefault_absent (m : List (String × Yaml)) (k : String)
    (v : Yaml) (h : mapGet m k = none) :
    mapGet (mapSetdefault m k v) k = some v := by
  unfold mapSetdefault
  rw [h]
  simp only [Option.isSome_none, Bool.false_eq_true, if_false]
  induction m with
  | nil => simp [mapGet]
  | cons hd t ih =>
    obtain ⟨k2, v2⟩ := hd
    simp only [mapGet] at h ⊢
    by_cases hk : k2 = k
    · simp [hk] at h
    · simp only [hk, if_false] at h ⊢
      exact ih h

/-! ## Front-matter fence matching

Model of `re.search(r'^\s*---(.*?)---', content, re.DOTALL)`: anchored at the
start of the text, a maximal whitespace run, an opening `---`, then the lazily
matched interior up to the earliest following `---`. -/

/-- Find the earliest `---` in `l`; return the part before it and the part
after it (the lazy `(.*?)---`). -/
def findClose : Str → Option (Str × Str)
  | [] => none
  | c :: cs =>
    if c = '-' ∧ cs.take 2 = ['-', '-'] then some ([], cs.drop 2)
    else
      match findClose cs with
      | some (pre, suf) => some (c :: pre, suf)
      | none => none

/-- Decompose `content` as whitespace, `---`, interior, `---`, suffix, exactly
when the Python regex matches. -/
def splitHeader (content : Str) : Option (Str × Str × Str) :=
  let ws := content.takeWhile isPySpace
  match content.dropWhile isPySpace with
  | '-' :: '-' :: '-' :: body =>
    match findClose body with
    | some (inner, suffix) => some (ws, inner, suffix)
    | none => none
  | _ => none

/-- The document body: the text after the closing fence when a header
matches, the whole text otherwise. -/
def bodyOf (content : Str) : Str :=
  match splitHeader content with
  | some (_, _, suffix) => suffix
  | none => content

namespace CoverGen

/-! Embedding of `.github/scripts/generate_cover_images.py`. -/

/-- `COVERS_DIR`, `GITHUB_USERNAME`, `COVER_REPO`, `BRANCH` composed into the
`cdn_url_prefix` local of `update_properties`. -/
def cdnUrl : Str :=
  ("https://cdn.jsdelivr.net/gh/" ++
   "mohankumarpaluru/blog-cover-generator@main/public/assets/blog/covers/").data

/-- `clean_text_for_filename`: replace spaces with `_`, hyphens with spaces,
drop non-alphanumerics, lower-case. -/
def clean_text_for_filename (text : Str) : Str :=
  let t1 := pyReplaceChar ' ' '_' text
  let t2 := pyReplaceChar '-' ' ' t1
  let t3 := t2.filter isAsciiAlnumA
  t3.map toLowerA

/-- Lines 69-73: read `title`, fall back to the filename stem when it is
falsy (also writing the fallback into the properties). -/
def genTitleStep (path : Str) (props0 : List (String × Yaml)) :
    Yaml × List (String × Yaml) :=
  match mapGet props0 "title" with
  | some v =>
    if yamlTruthy v then (v, props0)
    else (.ystr (pyStem path), mapSet props0 "title" (.ystr (pyStem path)))
  | none => (.ystr (pyStem path), mapSet props0 "title" (.ystr (pyStem path)))

/-- The properties synthesized when no header exists (lines 96-102). -/
def genNewProps (t png today : Str) : List (String × Yaml) :=
  [("title", .ystr t),
   ("ogImage", .ymap [("url", .ystr (cdnUrl ++ png))]),
   ("date", .ystr today)]

/-- Lines 67-92 of `update_properties` (the existing-header branch, up to
re-serialization): returns `none` for the `(False, False, False)` early exit,
otherwise the title, the optional new image filename, and the final
properties. -/
def genHeaderStep (path today : Str) (props0 : List (String × Yaml)) :
    Except PyErr (Option (Yaml × Option Str × List (String × Yaml))) :=
  let tp := genTitleStep path props0
  let note_title := tp.1
  let props1 := tp.2
  let note_date := mapGet props1 "date"
  let dupdate := mapGet props1 "dupdate"
  match mapGet props1 "ogImage" with
  | some (.ymap og) =>
    genHeaderRest today note_title props1 note_date dupdate og
  | none => genHeaderRest today note_title props1 note_date dupdate []
  | some _ => .error .attrError
where
  /-- Continuation after `og_image = properties.get('ogImage', {})`; a
  non-mapping `ogImage` value has no `.get` and raises `AttributeError`. -/
  genHeaderRest (today : Str) (note_title : Yaml)
      (props1 : List (String × Yaml)) (note_date dupdate : Option Yaml)
      (og : List (String × Yaml)) :
      Except PyErr (Option (Yaml × Option Str × List (String × Yaml))) :=
    let og_url := mapGet og "url"
    if optTruthy og_url && optEqStr note_date today then
      .ok none
    else
      match
        (if optTruthy og_url then
          Except.ok ((none : Option Str), props1)
        else
          match note_title with
          | .ystr s =>
            let png := clean_text_for_filename s ++ ".png".data
            Except.ok (some png,
              mapSetdefault props1 "ogImage"
                (.ymap [("url", .ystr (cdnUrl ++ png))]))
          | _ => Except.error PyErr.attrError) with
      | .error e => .error e
      | .ok (png, props2) =>
        let props3 :=
          if optTruthy dupdate then props2
          else mapSet props2 "date" (.ystr today)
        .ok (some (note_title, png, props3))

/-- `update_properties` of `generate_cover_images.py`.  `parse`/`dump` model
ruamel.yaml (`parse _ = none` models a parser exception); `fs` models
`Path.is_file` plus reading; `today` is `datetime.now().strftime("%Y-%m-%d")`.
The returned triple is Python's `(note_title, png_file_name, file_content)`,
with `none` for the `False` sentinels.  The `re.sub` splice is modelled as
literal replacement (the group-reference escape processing of the replacement
string is not modelled; the dumped mappings contain no backslashes). -/
def update_properties (parse : Str → Option Yaml)
    (dump : List (String × Yaml) → Str) (fs : Str → Option Str) (today : Str)
    (file_path file_content : Option Str) :
    Except PyErr (Option Yaml × Option Str × Option Str) :=
  match file_path with
  | none => .error .typeError
  | some path =>
    let content0 :=
      if optFalsy file_content then
        match fs path with
        | some c => some c
        | none => file_content
      else file_content
    match content0 with
    | none => .error .typeError
    | some content =>
      match splitHeader content with
      | some (_, inner, suffix) =>
        (match parse inner with
        | none => .error .yamlError
        | some (.ymap props) =>
          (match genHeaderStep path today props with
          | .error e => .error e
          | .ok none => .ok (none, none, none)
          | .ok (some (t, png, fp)) =>
            .ok (some t, png,
              some ("---\n".data ++ dump fp ++ "---".data ++ suffix)))
        | some _ => .error .attrError)
      | none =>
        let t := pyStem path
        let png := clean_text_for_filename t ++ ".png".data
        .ok (some (.ystr t), some png,
          some ("---\n".data ++ dump (genNewProps t png today) ++
            "---\n\n".data ++ content))

/-- The document content the caller ends up with: the returned content, or
the input unchanged when the function signalled "no changes". -/
def effectiveContent (input : Str)
    (r : Option Yaml × Option Str × Option Str) : Str :=
  match r.2.2 with
  | some c => c
  | none => input

end CoverGen

/-- Simplified stand-in for ruamel's block-style dump, used only to
instantiate the `dump` parameter in concrete runs (the proved properties do
not depend on the dump text). -/
def yScalar : Yaml → Str
  | .ystr s => s
  | .ybool b => if b then "true".data else "false".data
  | .yint n => (toString n).data
  | .ynull => "null".data
  | .ymap _ => []

def dumpSimple (kvs : List (String × Yaml)) : Str :=
  kvs.foldr (fun kv acc =>
    (match kv.2 with
    | .ymap [] => kv.1.data ++ ": \x7b\x7d\n".data
    | .ymap sub =>
      kv.1.data ++ ":\n".data ++
        sub.foldr (fun kv2 acc2 =>
          "  ".data ++ kv2.1.data ++ ": ".data ++ yScalar kv2.2 ++
            "\n".data ++ acc2) []
    | v => kv.1.data ++ ": ".data ++ yScalar v ++ "\n".data) ++ acc) []

namespace FrontMatter

/-! Embedding of `.github/scripts/update_frontmatter.py`. -/

/-- `remove_extension`: `re.sub(r'\.[^.]+$', '', filename)`. -/
def remove_extension (n : Str) : Str :=
  match lastDotIdx n with
  | some i => if i + 1 < n.length then n.take i else n
  | none => n

/-- Word characters of Python `re` (`\w`, ASCII fragment). -/
def isWordCharA (c : Char) : Bool := isAsciiAlnumA c || c = '_'

/-- First alternative of `split_words`' regex: `[A-Z]?[a-z]+`. -/
def alt1 : Str → Option (Str × Str)
  | [] => none
  | c :: cs =>
    if isAsciiUpperA c then
      let t := cs.takeWhile isAsciiLowerA
      if t.isEmpty then none
      else some (c :: t, cs.dropWhile isAsciiLowerA)
    else
      let t := (c :: cs).takeWhile isAsciiLowerA
      if t.isEmpty then none else some (t, (c :: cs).dropWhile isAsciiLowerA)

/-- The lookahead `(?=[A-Z][a-z]|\d|\W|$)`. -/
def lookahead2 : Str → Bool
  | [] => true
  | c :: cs =>
    (isAsciiUpperA c &&
      (match cs with
       | c2 :: _ => isAsciiLowerA c2
       | [] => false))
    || isAsciiDigitA c || !isWordCharA c

/-- Greedy-with-backtracking body of `[A-Z]+(?=...)`: try the longest
uppercase run first, shrinking until the lookahead holds. -/
def alt2Aux (run rest : Str) : Nat → Option (Str × Str)
  | 0 => none
  | k + 1 =>
    let tail := run.drop (k + 1) ++ rest
    if lookahead2 tail then some (run.take (k + 1), tail)
    else alt2Aux run rest k

/-- Second alternative of the regex: `[A-Z]+(?=[A-Z][a-z]|\d|\W|$)`. -/
def alt2 (l : Str) : Option (Str × Str) :=
  alt2Aux (l.takeWhile isAsciiUpperA) (l.dropWhile isAsciiUpperA)
    (l.takeWhile isAsciiUpperA).length

/-- Third alternative of the regex: `\d+`. -/
def alt3 (l : Str) : Option (Str × Str) :=
  let run := l.takeWhile isAsciiDigitA
  if run.isEmpty then none else some (run, l.dropWhile isAsciiDigitA)

/-- `re.findall` scan: at each position try the three alternatives in order,
else advance one character.  The fuel equals the remaining length, which
suffices because every token is non-empty. -/
def splitWordsAux : Nat → Str → List Str
  | 0, _ => []
  | _, [] => []
  | fuel + 1, l =>
    match alt1 l with
    | some (tok, rest) => tok :: splitWordsAux fuel rest
    | none =>
      match alt2 l with
      | some (tok, rest) => tok :: splitWordsAux fuel rest
      | none =>
        match alt3 l with
        | some (tok, rest) => tok :: splitWordsAux fuel rest
        | none => splitWordsAux fuel l.tail

/-- `split_words`. -/
def split_words (l : Str) : List Str := splitWordsAux l.length l

/-- `process_word`. -/
def process_word (w : Str) : Str :=
  if pyIsUpper w && decide (1 < w.length) then w
  else if pyIsDigit w then w
  else pyCapitalize w

/-- `generate_title`. -/
def generate_title (filename : Str) : Str :=
  let base :=
    pyReplaceChar '-' ' ' (pyReplaceChar '_' ' ' (remove_extension filename))
  List.intercalate [' ']
    ((pySplitWs base).map (fun w => if pyIsUpper w then w else pyTitle w))

/-- `generate_description`. -/
def generate_description (filename : Str) : Str :=
  List.intercalate [' ']
    ((split_words (remove_extension filename)).map process_word)

/-- Default title when the key is absent (line 92); the `if file_path`
condition is Python truthiness of the argument (`None` and `""` are falsy). -/
def fmTitleDefault : Option Str → Yaml
  | some p =>
    if p.isEmpty then .ystr "Untitled".data
    else .ystr (generate_title (pyStem p))
  | none => .ystr "Untitled".data

/-- Default description when the key is absent (line 94). -/
def fmDescDefault : Option Str → Yaml
  | some p =>
    if p.isEmpty then .ystr [] else .ystr (generate_description (pyStem p))
  | none => .ystr []

/-- Lines 90-95: fill `title` and `description` when the keys are absent,
then overwrite `date`. -/
def fmProps (file_path : Option Str) (today : Str)
    (props0 : List (String × Yaml)) : List (String × Yaml) :=
  let props1 :=
    if (mapGet props0 "title").isNone then
      mapSet props0 "title" (fmTitleDefault file_path)
    else props0
  let props2 :=
    if (mapGet props1 "description").isNone then
      mapSet props1 "description" (fmDescDefault file_path)
    else props1
  mapSet props2 "date" (.ystr today)

/-- Lines 70-74: the content actually reconciled — the argument, or the file
read through the path hint when the argument is falsy and the file exists. -/
def fmEffContent (fs : Str → Option Str) (file_path file_content : Option Str) :
    Option Str :=
  match file_path with
  | some p =>
    if !p.isEmpty && optFalsy file_content then
      match fs p with
      | some c => some c
      | none => file_content
    else file_content
  | none => file_content

/-- `update_properties` of `update_frontmatter.py`.  A parse result that is
truthy but not a mapping later crashes on item assignment; this is modelled as
an immediate `typeError`.  A falsy parse result is replaced by `{}`
(`yaml.load(...) or {}`). -/
def update_properties (parse : Str → Option Yaml)
    (dump : List (String × Yaml) → Str) (fs : Str → Option Str) (today : Str)
    (file_path file_content : Option Str) : Except PyErr Str :=
  match fmEffContent fs file_path file_content with
  | none => .error .valueError
  | some content =>
    match splitHeader content with
    | some (_, inner, suffix) =>
      (match parse inner with
      | none => .error .yamlError
      | some v =>
        if yamlTruthy v then
          match v with
          | .ymap props0 =>
            .ok ("---\n".data ++
              pyStrip (dump (fmProps file_path today props0)) ++
              "\n---\n".data ++ suffix)
          | _ => .error .typeError
        else
          .ok ("---\n".data ++ pyStrip (dump (fmProps file_path today [])) ++
            "\n---\n".data ++ suffix))
    | none =>
      .ok ("---\n".data ++ pyStrip (dump (fmProps file_path today [])) ++
        "\n---\n".data ++ "\n".data ++ pyStrip content)

end FrontMatter

/-! ## Claim C1 -/

theorem genTitleStep_mapGet_ne (path : Str) (props : List (String × Yaml))
    (k : String) (h : k ≠ "title") :
    mapGet (CoverGen.genTitleStep path props).2 k = mapGet props k := by
  unfold CoverGen.genTitleStep
  cases hv : mapGet props "title" with
  | none => simp [mapGet_mapSet_ne _ _ _ _ (Ne.symm h)]
  | some v =>
    by_cases ht : yamlTruthy v <;>
      simp [ht, mapGet_mapSet_ne _ _ _ _ (Ne.symm h)]

theorem genHeaderStep_noop (path today : Str)
    (props og : List (String × Yaml)) (u : Yaml)
    (hog : mapGet props "ogImage" = some (.ymap og))
    (hurl : mapGet og "url" = some u) (hu : yamlTruthy u = true)
    (hdate : mapGet props "date" = some (.ystr today)) :
    CoverGen.genHeaderStep path today props = .ok none := by
  have h1 : mapGet (CoverGen.genTitleStep path props).2 "ogImage"
      = some (.ymap og) := by
    rw [genTitleStep_mapGet_ne _ _ _ (by decide)]; exact hog
  have h2 : mapGet (CoverGen.genTitleStep path props).2 "date"
      = some (.ystr today) := by
    rw [genTitleStep_mapGet_ne _ _ _ (by decide)]; exact hdate
  simp only [CoverGen.genHeaderStep, h1, h2]
  simp only [CoverGen.genHeaderStep.genHeaderRest, hurl, optTruthy, optEqStr,
    hu, beq_self_eq_true, Bool.and_self, if_true]

/-- C1: for a document whose existing header has a (truthy) `ogImage.url` and
whose `date` equals the run's current date, `update_properties` returns the
`(False, False, False)` "no changes" signal — the caller keeps the input
content unchanged (`effectiveContent`) — and no cover-image job (no png
filename) is emitted. -/
theorem c1_existing_cover_same_day_noop
    (parse : Str → Option Yaml) (dump : List (String × Yaml) → Str)
    (fs : Str → Option Str) (today path c ws inner suffix : Str)
    (props og : List (String × Yaml)) (u : Yaml)
    (hc : c ≠ [])
    (hsplit : splitHeader c = some (ws, inner, suffix))
    (hparse : parse inner = some (.ymap props))
    (hog : mapGet props "ogImage" = some (.ymap og))
    (hurl : mapGet og "url" = some u) (hu : yamlTruthy u = true)
    (hdate : mapGet props "date" = some (.ystr today)) :
    CoverGen.update_properties parse dump fs today (some path) (some c)
      = .ok (none, none, none) ∧
    CoverGen.effectiveContent c (none, none, none) = c := by
  refine ⟨?_, rfl⟩
  have hne : optFalsy (some c) = false := by
    cases c with
    | nil => exact absurd rfl hc
    | cons a l => rfl
  simp only [CoverGen.update_properties, hne, Bool.false_eq_true, if_false,
    hsplit, hparse, genHeaderStep_noop path today props og u hog hurl hu hdate]

/-- Witness for C1 at a concrete document. -/
theorem c1_existing_cover_same_day_noop_witness :
    CoverGen.update_properties
      (fun _ => some (.ymap [("title", .ystr "A".data),
        ("ogImage", .ymap [("url", .ystr "u".data)]),
        ("date", .ystr "2025-01-01".data)]))
      dumpSimple (fun _ => none) "2025-01-01".data
      (some "post.md".data)
      (some "---\ntitle: A\nogImage:\n  url: u\ndate: 2025-01-01\n---\nBody".data)
      = .ok (none, none, none) ∧
    CoverGen.effectiveContent
      "---\ntitle: A\nogImage:\n  url: u\ndate: 2025-01-01\n---\nBody".data
      (none, none, none)
      = "---\ntitle: A\nogImage:\n  url: u\ndate: 2025-01-01\n---\nBody".data :=
by
  apply c1_existing_cover_same_day_noop
  · decide
  · rfl
  · rfl
  · rfl
  · rfl
  · rfl
  · rfl

/-! ## Claim C3 -/

/-- C3: for a document without a front-matter header, `update_properties`
builds a new header whose properties are exactly `title`, `ogImage` (holding
only `url`), and `date`, and emits the original body unchanged after the
closing fence plus exactly one blank line (`"---\n" ++ dump ++ "---\n\n" ++
body`). -/
theorem c3_no_header_new_props
    (parse : Str → Option Yaml) (dump : List (String × Yaml) → Str)
    (fs : Str → Option Str) (today path c : Str)
    (hc : c ≠ []) (hsplit : splitHeader c = none) :
    CoverGen.update_properties parse dump fs today (some path) (some c)
      = .ok (some (.ystr (pyStem path)),
          some (CoverGen.clean_text_for_filename (pyStem path) ++ ".png".data),
          some ("---\n".data ++
            dump (CoverGen.genNewProps (pyStem path)
              (CoverGen.clean_text_for_filename (pyStem path) ++ ".png".data)
              today) ++
            "---\n\n".data ++ c)) ∧
    (CoverGen.genNewProps (pyStem path)
        (CoverGen.clean_text_for_filename (pyStem path) ++ ".png".data)
        today).map Prod.fst = ["title", "ogImage", "date"] ∧
    mapGet (CoverGen.genNewProps (pyStem path)
        (CoverGen.clean_text_for_filename (pyStem path) ++ ".png".data)
        today) "ogImage"
      = some (.ymap [("url", .ystr (CoverGen.cdnUrl ++
          (CoverGen.clean_text_for_filename (pyStem path) ++ ".png".data)))]) := by
  have hne : optFalsy (some c) = false := by
    cases c with
    | nil => exact absurd rfl hc
    | cons a l => rfl
  refine ⟨?_, by simp [CoverGen.genNewProps], by simp [CoverGen.genNewProps, mapGet]⟩
  simp only [CoverGen.update_properties, hne, Bool.false_eq_true, if_false, hsplit]

/-- Witness for C3 at a concrete document. -/
theorem c3_no_header_new_props_witness :
    CoverGen.update_properties (fun _ => none) dumpSimple (fun _ => none)
      "2025-01-01".data (some "notes/my-post.md".data) (some "Hi there\n".data)
      = .ok (some (.ystr (pyStem "notes/my-post.md".data)),
          some (CoverGen.clean_text_for_filename (pyStem "notes/my-post.md".data)
            ++ ".png".data),
          some ("---\n".data ++
            dumpSimple (CoverGen.genNewProps (pyStem "notes/my-post.md".data)
              (CoverGen.clean_text_for_filename (pyStem "notes/my-post.md".data)
                ++ ".png".data) "2025-01-01".data) ++
            "---\n\n".data ++ "Hi there\n".data)) ∧
    (CoverGen.genNewProps (pyStem "notes/my-post.md".data)
        (CoverGen.clean_text_for_filename (pyStem "notes/my-post.md".data)
          ++ ".png".data) "2025-01-01".data).map Prod.fst
      = ["title", "ogImage", "date"] ∧
    mapGet (CoverGen.genNewProps (pyStem "notes/my-post.md".data)
        (CoverGen.clean_text_for_filename (pyStem "notes/my-post.md".data)
          ++ ".png".data) "2025-01-01".data) "ogImage"
      = some (.ymap [("url", .ystr (CoverGen.cdnUrl ++
          (CoverGen.clean_text_for_filename (pyStem "notes/my-post.md".data)
            ++ ".png".data)))]) := by
  apply c3_no_header_new_props
  · decide
  · rfl

/-! ## Claim C7 -/

theorem optEqStr_eq {v : Option Yaml} {s : Str} (h : optEqStr v s = true) :
    v = some (.ystr s) := by
  match v with
  | none => simp [optEqStr] at h
  | some (.ystr t) =>
    simp only [optEqStr, beq_iff_eq] at h
    rw [h]
  | some (.ybool b) => simp [optEqStr] at h
  | some (.yint n) => simp [optEqStr] at h
  | some .ynull => simp [optEqStr] at h
  | some (.ymap m) => simp [optEqStr] at h

theorem genHeaderRest_spec (today : Str) (nt : Yaml)
    (props1 : List (String × Yaml)) (nd dup : Option Yaml)
    (og : List (String × Yaml)) :
    (∀ t png fp,
      CoverGen.genHeaderStep.genHeaderRest today nt props1 nd dup og
        = .ok (some (t, png, fp)) →
      mapGet fp "date" =
        if optTruthy dup = true then mapGet props1 "date"
        else some (.ystr today)) ∧
    (CoverGen.genHeaderStep.genHeaderRest today nt props1 nd dup og
        = .ok none →
      nd = some (.ystr today)) := by
  unfold CoverGen.genHeaderStep.genHeaderRest
  by_cases hcnd : (optTruthy (mapGet og "url") && optEqStr nd today) = true
  · constructor
    · intro t png fp h
      rw [if_pos hcnd] at h
      simp at h
    · intro _
      have hcnd2 := hcnd
      simp only [Bool.and_eq_true] at hcnd2
      exact optEqStr_eq hcnd2.2
  · simp only [if_neg hcnd]
    by_cases hu : optTruthy (mapGet og "url") = true
    · simp only [if_pos hu]
      constructor
      · intro t png fp h
        simp only [Except.ok.injEq, Option.some.injEq, Prod.mk.injEq] at h
        obtain ⟨h1, h2, h3⟩ := h
        subst h3
        by_cases hd : optTruthy dup = true
        · rw [if_pos hd, if_pos hd]
        · rw [if_neg hd, if_neg hd]
          exact mapGet_mapSet_self _ _ _
      · intro h
        simp at h
    · simp only [if_neg hu]
      cases nt with
      | ystr s =>
        constructor
        · intro t png fp h
          simp only [Except.ok.injEq, Option.some.injEq, Prod.mk.injEq] at h
          obtain ⟨h1, h2, h3⟩ := h
          subst h3
          by_cases hd : optTruthy dup = true
          · rw [if_pos hd, if_pos hd]
            exact mapGet_setdefault_ne _ _ _ _ (by decide)
          · rw [if_neg hd, if_neg hd]
            exact mapGet_mapSet_self _ _ _
        · intro h
          simp at h
      | ybool b =>
        constructor
        · intro t png fp h
          simp at h
        · intro h
          simp at h
      | yint n =>
        constructor
        · intro t png fp h
          simp at h
        · intro h
          simp at h
      | ynull =>
        constructor
        · intro t png fp h
          simp at h
        · intro h
          simp at h
      | ymap m =>
        constructor
        · intro t png fp h
          simp at h
        · intro h
          simp at h

/-- C7: in the existing-header branch, the final properties carry `date =
today` exactly when the stored `dupdate` flag is not truthy; with a truthy
`dupdate` the stored `date` is left unchanged.  In the `(False, False,
False)` early-exit case nothing is rewritten and the stored `date` already
equals today. -/
theorem c7_date_overwritten_unless_dupdate (path today : Str)
    (props : List (String × Yaml)) :
    (∀ t png fp,
      CoverGen.genHeaderStep path today props = .ok (some (t, png, fp)) →
      mapGet fp "date" =
        if optTruthy (mapGet props "dupdate") = true then mapGet props "date"
        else some (.ystr today)) ∧
    (CoverGen.genHeaderStep path today props = .ok none →
      mapGet props "date" = some (.ystr today)) := by
  have hdup := genTitleStep_mapGet_ne path props "dupdate" (by decide)
  have hdat := genTitleStep_mapGet_ne path props "date" (by decide)
  constructor
  · intro t png fp h
    simp only [CoverGen.genHeaderStep] at h
    rcases hog : mapGet (CoverGen.genTitleStep path props).2 "ogImage" with _ | v
    · rw [hog] at h
      have := (genHeaderRest_spec today (CoverGen.genTitleStep path props).1
        (CoverGen.genTitleStep path props).2
        (mapGet (CoverGen.genTitleStep path props).2 "date")
        (mapGet (CoverGen.genTitleStep path props).2 "dupdate") []).1 t png fp h
      rw [hdup, hdat] at this
      exact this
    · rw [hog] at h
      cases v with
      | ymap og =>
        have := (genHeaderRest_spec today (CoverGen.genTitleStep path props).1
          (CoverGen.genTitleStep path props).2
          (mapGet (CoverGen.genTitleStep path props).2 "date")
          (mapGet (CoverGen.genTitleStep path props).2 "dupdate") og).1 t png fp h
        rw [hdup, hdat] at this
        exact this
      | ystr s => simp at h
      | ybool b => simp at h
      | yint n => simp at h
      | ynull => simp at h
  · intro h
    simp only [CoverGen.genHeaderStep] at h
    rcases hog : mapGet (CoverGen.genTitleStep path props).2 "ogImage" with _ | v
    · rw [hog] at h
      have := (genHeaderRest_spec today (CoverGen.genTitleStep path props).1
        (CoverGen.genTitleStep path props).2
        (mapGet (CoverGen.genTitleStep path props).2 "date")
        (mapGet (CoverGen.genTitleStep path props).2 "dupdate") []).2 h
      rw [hdat] at this
      exact this
    · rw [hog] at h
      cases v with
      | ymap og =>
        have := (genHeaderRest_spec today (CoverGen.genTitleStep path props).1
          (CoverGen.genTitleStep path props).2
          (mapGet (CoverGen.genTitleStep path props).2 "date")
          (mapGet (CoverGen.genTitleStep path props).2 "dupdate") og).2 h
        rw [hdat] at this
        exact this
      | ystr s => simp at h
      | ybool b => simp at h
      | yint n => simp at h
      | ynull => simp at h

/-- Witness for C7: a truthy `dupdate` keeps the stored date. -/
theorem c7_date_overwritten_unless_dupdate_witness :
    mapGet [("title", Yaml.ystr "A".data), ("dupdate", Yaml.ybool true),
      ("date", Yaml.ystr "2020-05-05".data),
      ("ogImage", Yaml.ymap [("url", Yaml.ystr "u".data)])] "date"
      = some (.ystr "2020-05-05".data) := by
  have h := (c7_date_overwritten_unless_dupdate "p.md".data "2025-01-01".data
    [("title", Yaml.ystr "A".data), ("dupdate", Yaml.ybool true),
      ("date", Yaml.ystr "2020-05-05".data),
      ("ogImage", Yaml.ymap [("url", Yaml.ystr "u".data)])]).1
    (Yaml.ystr "A".data) none
    [("title", Yaml.ystr "A".data), ("dupdate", Yaml.ybool true),
      ("date", Yaml.ystr "2020-05-05".data),
      ("ogImage", Yaml.ymap [("url", Yaml.ystr "u".data)])] rfl
  simpa using h

/-! ## Claim C4 -/

/-- C4 counterexample: a header whose `ogImage` key is present but holds no
`url` (`ogImage: {}` parses to an empty mapping).  No `ogImage.url` value is
present, and a cover job (`a.png`) *is* registered, but — because the code
uses `properties.setdefault('ogImage', ...)` and the key already exists — the
returned front matter still contains no `url` anywhere, contradicting the
claim that it would contain `ogImage.url` = CDN prefix + slug + `.png`. -/
theorem c4_counterexample :
    CoverGen.update_properties
      (fun _ => some (.ymap [("title", .ystr "A".data), ("ogImage", .ymap [])]))
      dumpSimple (fun _ => none) "2025-01-01".data (some "post.md".data)
      (some "---\ntitle: A\nogImage: \x7b\x7d\n---\nBody".data)
      = .ok (some (.ystr "A".data), some "a.png".data,
          some "---\ntitle: A\nogImage: \x7b\x7d\ndate: 2025-01-01\n---\nBody".data)
    ∧ ¬ List.IsInfix "url".data
        "---\ntitle: A\nogImage: \x7b\x7d\ndate: 2025-01-01\n---\nBody".data :=
  ⟨rfl, by decide⟩

theorem optTruthy_none : optTruthy none = false := rfl

theorem genTitleStep_of_title (path : Str) (props : List (String × Yaml))
    (s : Str) (ht : mapGet props "title" = some (.ystr s)) (hs : s ≠ []) :
    CoverGen.genTitleStep path props = (.ystr s, props) := by
  have htr : yamlTruthy (Yaml.ystr s) = true := by
    cases s with
    | nil => exact absurd rfl hs
    | cons a l => rfl
  unfold CoverGen.genTitleStep
  rw [ht]
  simp [htr]

/-- C4 amended: with a (non-empty string) title present, (i) when the
`ogImage` key is absent, a job with slug filename is registered and the final
properties gain `ogImage = {url: CDN prefix ++ slug ++ ".png"}`; (ii) when
the `ogImage` key is present but holds no `url`, a job is still registered
while the stored `ogImage` value is left unchanged — no `url` is added
(`setdefault` skips an existing key); (iii) when a truthy `ogImage.url`
exists, no job is registered. -/
theorem c4_cover_job_and_url (path today : Str)
    (props og : List (String × Yaml)) (s : Str)
    (ht : mapGet props "title" = some (.ystr s)) (hs : s ≠ []) :
    (mapGet props "ogImage" = none →
      ∀ t p fp,
        CoverGen.genHeaderStep path today props = .ok (some (t, p, fp)) →
        p = some (CoverGen.clean_text_for_filename s ++ ".png".data) ∧
        mapGet fp "ogImage" = some (.ymap [("url", .ystr (CoverGen.cdnUrl ++
          (CoverGen.clean_text_for_filename s ++ ".png".data)))])) ∧
    (mapGet props "ogImage" = some (.ymap og) → mapGet og "url" = none →
      ∀ t p fp,
        CoverGen.genHeaderStep path today props = .ok (some (t, p, fp)) →
        p = some (CoverGen.clean_text_for_filename s ++ ".png".data) ∧
        mapGet fp "ogImage" = some (.ymap og)) ∧
    (mapGet props "ogImage" = some (.ymap og) →
      optTruthy (mapGet og "url") = true →
      ∀ t p fp,
        CoverGen.genHeaderStep path today props = .ok (some (t, p, fp)) →
        p = none) := by
  have htt := genTitleStep_of_title path props s ht hs
  refine ⟨?_, ?_, ?_⟩
  · intro hog t p fp h
    simp only [CoverGen.genHeaderStep, htt, hog] at h
    unfold CoverGen.genHeaderStep.genHeaderRest at h
    simp only [mapGet, optTruthy_none, Bool.false_and, Bool.false_eq_true, if_false] at h
    simp only [Except.ok.injEq, Option.some.injEq, Prod.mk.injEq] at h
    obtain ⟨h1, h2, h3⟩ := h
    subst h2 h3
    refine ⟨rfl, ?_⟩
    by_cases hd : optTruthy (mapGet props "dupdate") = true
    · rw [if_pos hd]
      exact mapGet_setdefault_absent _ _ _ hog
    · rw [if_neg hd]
      rw [mapGet_mapSet_ne _ _ _ _ (by decide)]
      exact mapGet_setdefault_absent _ _ _ hog
  · intro hog hurl t p fp h
    simp only [CoverGen.genHeaderStep, htt, hog] at h
    unfold CoverGen.genHeaderStep.genHeaderRest at h
    simp only [hurl, optTruthy_none, Bool.false_and, Bool.false_eq_true, if_false] at h
    simp only [Except.ok.injEq, Option.some.injEq, Prod.mk.injEq] at h
    obtain ⟨h1, h2, h3⟩ := h
    subst h2 h3
    have hpres : mapSetdefault props "ogImage"
        (.ymap [("url", .ystr (CoverGen.cdnUrl ++
          (CoverGen.clean_text_for_filename s ++ ".png".data)))]) = props :=
      mapGet_setdefault_present _ _ _ (by rw [hog]; rfl)
    refine ⟨rfl, ?_⟩
    by_cases hd : optTruthy (mapGet props "dupdate") = true
    · rw [if_pos hd, hpres]
      exact hog
    · rw [if_neg hd, hpres]
      rw [mapGet_mapSet_ne _ _ _ _ (by decide)]
      exact hog
  · intro hog hurl t p fp h
    simp only [CoverGen.genHeaderStep, htt, hog] at h
    unfold CoverGen.genHeaderStep.genHeaderRest at h
    by_cases he : optEqStr (mapGet props "date") today = true
    · rw [if_pos (by rw [hurl, he]; rfl)] at h
      simp at h
    · rw [if_neg (by rw [hurl]; simpa using he)] at h
      rw [if_pos hurl] at h
      simp only [Except.ok.injEq, Option.some.injEq, Prod.mk.injEq] at h
      exact h.2.1.symm

/-- Witness for the amended C4 at a concrete property set with `ogImage`
present but empty: the job filename is the slug and the stored `ogImage`
value is unchanged. -/
theorem c4_cover_job_and_url_witness :
    (some "a.png".data : Option Str)
      = some (CoverGen.clean_text_for_filename "A".data ++ ".png".data) ∧
    mapGet [("title", Yaml.ystr "A".data), ("ogImage", Yaml.ymap []),
      ("date", Yaml.ystr "2025-01-01".data)] "ogImage"
      = some (Yaml.ymap []) := by
  have h := (c4_cover_job_and_url "p.md".data "2025-01-01".data
      [("title", Yaml.ystr "A".data), ("ogImage", Yaml.ymap [])] [] "A".data
      rfl (by decide)).2.1 rfl rfl
      (Yaml.ystr "A".data) (some "a.png".data)
      [("title", Yaml.ystr "A".data), ("ogImage", Yaml.ymap []),
       ("date", Yaml.ystr "2025-01-01".data)] rfl
  exact h

/-! ## Claim C2 -/

/-- C2 counterexample: in the `update_frontmatter.py` variant, a document
without a header and with trailing whitespace in its body (`"hello \n"`) is
reconciled to a document whose body is `strip`ped (`"hello"`): the original
body is not byte-identical after reconciliation — it is not even a suffix of
the output. -/
theorem c2_counterexample :
    FrontMatter.update_properties (fun _ => none) (fun _ => "t: v\n".data)
      (fun _ => none) "2025-01-01".data none (some "hello \n".data)
      = .ok "---\nt: v\n---\n\nhello".data ∧
    ¬ List.IsSuffix "hello \n".data "---\nt: v\n---\n\nhello".data :=
  ⟨rfl, by decide⟩

theorem fmEffContent_some (fs : Str → Option Str) (fpath : Option Str)
    (c : Str) (hc : c ≠ []) :
    FrontMatter.fmEffContent fs fpath (some c) = some c := by
  cases fpath with
  | none => rfl
  | some pp =>
    have hne : optFalsy (some c) = false := by
      cases c with
      | nil => exact absurd rfl hc
      | cons a l => rfl
    simp [FrontMatter.fmEffContent, hne]

/-- C2 amended: the body after the header fence is byte-identical across
reconciliation (a suffix of the output) in the cover-image variant for every
input (with or without header), and in the front-matter variant whenever the
input has a header.  (In the front-matter variant's no-header case the body
is stripped of surrounding whitespace first — the counterexample.) -/
theorem c2_body_preserved :
    (∀ (parse : Str → Option Yaml) (dump : List (String × Yaml) → Str)
        (fs : Str → Option Str) (today path c : Str) (t : Option Yaml)
        (p : Option Str) (out : Str),
      c ≠ [] →
      CoverGen.update_properties parse dump fs today (some path) (some c)
        = .ok (t, p, some out) →
      List.IsSuffix (bodyOf c) out) ∧
    (∀ (parse : Str → Option Yaml) (dump : List (String × Yaml) → Str)
        (fs : Str → Option Str) (today : Str) (fpath : Option Str)
        (c ws inner suffix out : Str),
      c ≠ [] →
      splitHeader c = some (ws, inner, suffix) →
      FrontMatter.update_properties parse dump fs today fpath (some c)
        = .ok out →
      List.IsSuffix suffix out) := by
  constructor
  · intro parse dump fs today path c t p out hc h
    have hne : optFalsy (some c) = false := by
      cases c with
      | nil => exact absurd rfl hc
      | cons a l => rfl
    cases hsp : splitHeader c with
    | some trip =>
      obtain ⟨ws, inner, suffix⟩ := trip
      have hb : bodyOf c = suffix := by simp [bodyOf, hsp]
      rw [hb]
      cases hp : parse inner with
      | none =>
        simp [CoverGen.update_properties, hne, hsp, hp] at h
      | some v =>
        cases v with
        | ymap props =>
          cases hg : CoverGen.genHeaderStep path today props with
          | error e =>
            simp [CoverGen.update_properties, hne, hsp, hp, hg] at h
          | ok r =>
            cases r with
            | none =>
              simp [CoverGen.update_properties, hne, hsp, hp, hg] at h
            | some trip2 =>
              obtain ⟨tt, png, fp⟩ := trip2
              simp only [CoverGen.update_properties, hne, Bool.false_eq_true,
                if_false, hsp, hp, hg, Except.ok.injEq, Prod.mk.injEq,
                Option.some.injEq] at h
              obtain ⟨h1, h2, h3⟩ := h
              subst h3
              exact ⟨"---\n".data ++ dump fp ++ "---".data, by simp⟩
        | ystr s => simp [CoverGen.update_properties, hne, hsp, hp] at h
        | ybool b => simp [CoverGen.update_properties, hne, hsp, hp] at h
        | yint n => simp [CoverGen.update_properties, hne, hsp, hp] at h
        | ynull => simp [CoverGen.update_properties, hne, hsp, hp] at h
    | none =>
      have hb : bodyOf c = c := by simp [bodyOf, hsp]
      rw [hb]
      simp only [CoverGen.update_properties, hne, Bool.false_eq_true,
        if_false, hsp, Except.ok.injEq, Prod.mk.injEq,
        Option.some.injEq] at h
      obtain ⟨h1, h2, h3⟩ := h
      subst h3
      exact ⟨"---\n".data ++
        dump (CoverGen.genNewProps (pyStem path)
          (CoverGen.clean_text_for_filename (pyStem path) ++ ".png".data)
          today) ++ "---\n\n".data, by simp⟩
  · intro parse dump fs today fpath c ws inner suffix out hc hsp h
    cases hp : parse inner with
    | none =>
      simp [FrontMatter.update_properties, fmEffContent_some fs fpath c hc,
        hsp, hp] at h
    | some v =>
      simp only [FrontMatter.update_properties,
        fmEffContent_some fs fpath c hc, hsp, hp] at h
      by_cases ht : yamlTruthy v = true
      · rw [if_pos ht] at h
        cases v with
        | ymap props =>
          simp only [Except.ok.injEq] at h
          subst h
          exact ⟨"---\n".data ++
            pyStrip (dump (FrontMatter.fmProps fpath today props)) ++
            "\n---\n".data, by simp⟩
        | ystr s => simp at h
        | ybool b => simp at h
        | yint n => simp at h
        | ynull => simp at h
      · rw [if_neg ht] at h
        simp only [Except.ok.injEq] at h
        subst h
        exact ⟨"---\n".data ++
          pyStrip (dump (FrontMatter.fmProps fpath today [])) ++
          "\n---\n".data, by simp⟩

/-- Witness for the amended C2 at concrete runs of both variants. -/
theorem c2_body_preserved_witness :
    List.IsSuffix (bodyOf "Hi\n".data)
      ("---\n".data ++ dumpSimple (CoverGen.genNewProps "a".data "a.png".data
        "2025-01-01".data) ++ "---\n\n".data ++ "Hi\n".data) ∧
    List.IsSuffix "\nBody".data
      ("---\n".data ++ pyStrip (dumpSimple (FrontMatter.fmProps
        (some "a.md".data) "2025-01-01".data [])) ++ "\n---\n".data ++
        "\nBody".data) := by
  constructor
  · exact c2_body_preserved.1 (fun _ => none) dumpSimple (fun _ => none)
      "2025-01-01".data "a.md".data "Hi\n".data
      (some (.ystr "a".data)) (some "a.png".data)
      ("---\n".data ++ dumpSimple (CoverGen.genNewProps "a".data "a.png".data
        "2025-01-01".data) ++ "---\n\n".data ++ "Hi\n".data)
      (by decide) rfl
  · exact c2_body_preserved.2 (fun _ => some .ynull) dumpSimple
      (fun _ => none) "2025-01-01".data (some "a.md".data)
      "---\nx\n---\nBody".data [] "\nx\n".data "\nBody".data
      ("---\n".data ++ pyStrip (dumpSimple (FrontMatter.fmProps
        (some "a.md".data) "2025-01-01".data [])) ++ "\n---\n".data ++
        "\nBody".data)
      (by decide) rfl rfl

/-! ## Claim C6 -/

/-- C6 counterexample: supplying only a path hint — pointing at a file that
is not readable — still raises the `InvalidInput` error (`ValueError`), even
though one of the two arguments was supplied, contradicting "whenever at
least one of them is supplied it does not fail with that error". -/
theorem c6_counterexample :
    FrontMatter.update_properties (fun _ => none) dumpSimple (fun _ => none)
      "2025-01-01".data (some "note.md".data) none
      = .error PyErr.valueError :=
  rfl

/-- C6 amended: `update_properties` fails with the `InvalidInput` error
(`ValueError`) exactly when no content is effectively available: the content
argument is absent and the path hint is absent, empty, or does not resolve to
a readable file.  In particular it never fails with that error when a content
string is supplied. -/
theorem c6_invalid_input_iff (parse : Str → Option Yaml)
    (dump : List (String × Yaml) → Str) (fs : Str → Option Str)
    (today : Str) (fpath fcont : Option Str) :
    FrontMatter.update_properties parse dump fs today fpath fcont
      = .error PyErr.valueError ↔
    FrontMatter.fmEffContent fs fpath fcont = none := by
  cases he : FrontMatter.fmEffContent fs fpath fcont with
  | none => simp [FrontMatter.update_properties, he]
  | some c =>
    simp only [FrontMatter.update_properties, he]
    constructor
    · intro h
      cases hsp : splitHeader c with
      | some trip =>
        obtain ⟨ws, inner, suffix⟩ := trip
        cases hp : parse inner with
        | none => simp [hsp, hp] at h
        | some v =>
          by_cases ht : yamlTruthy v = true
          · cases v with
            | ymap props => simp [hsp, hp, ht] at h
            | ystr s => simp [hsp, hp, ht] at h
            | ybool b => simp [hsp, hp, ht] at h
            | yint n => simp [hsp, hp, ht] at h
            | ynull => simp [hsp, hp, ht] at h
          · simp [hsp, hp, ht] at h
      | none => simp [hsp] at h
    · intro h
      simp at h

/-! ## Claim C5 -/

/-- C5: when `title` is absent from the parsed properties, reconciliation
stores `generate_title` of the path hint's filename stem — separators
(`_`, `-`) become spaces, each word is title-cased except all-uppercase
words, which are preserved — and the two spec examples hold:
`my-cool_Post.md` gives `My Cool Post`, `NASA_report.md` gives
`NASA Report`. -/
theorem c5_title_from_stem :
    (∀ (path today : Str) (props0 : List (String × Yaml)),
      path ≠ [] → mapGet props0 "title" = none →
      mapGet (FrontMatter.fmProps (some path) today props0) "title"
        = some (.ystr (FrontMatter.generate_title (pyStem path)))) ∧
    FrontMatter.generate_title (pyStem "my-cool_Post.md".data)
      = "My Cool Post".data ∧
    FrontMatter.generate_title (pyStem "NASA_report.md".data)
      = "NASA Report".data := by
  refine ⟨?_, by decide, by decide⟩
  intro path today props0 hpath htitle
  have hne : path.isEmpty = false := by
    cases path with
    | nil => exact absurd rfl hpath
    | cons a l => rfl
  have ht : FrontMatter.fmTitleDefault (some path)
      = .ystr (FrontMatter.generate_title (pyStem path)) := by
    simp [FrontMatter.fmTitleDefault, hne]
  simp only [FrontMatter.fmProps, htitle, Option.isNone_none, if_true, ht]
  rw [mapGet_mapSet_ne _ _ _ _ (by decide)]
  by_cases hd : (mapGet (mapSet props0 "title"
      (.ystr (FrontMatter.generate_title (pyStem path)))) "description").isNone
      = true
  · rw [if_pos hd, mapGet_mapSet_ne _ _ _ _ (by decide), mapGet_mapSet_self]
  · rw [if_neg hd, mapGet_mapSet_self]

/-- Witness for C5 at a concrete path with no stored title. -/
theorem c5_title_from_stem_witness :
    mapGet (FrontMatter.fmProps (some "my-cool_Post.md".data)
      "2025-01-01".data []) "title"
      = some (.ystr "My Cool Post".data) := by
  have h := c5_title_from_stem.1 "my-cool_Post.md".data "2025-01-01".data []
    (by decide) rfl
  rw [h, c5_title_from_stem.2.1]

/-! ## Claim C8 -/

theorem toNat_toLowerA_of_upper (c : Char) (h : 65 ≤ c.toNat ∧ c.toNat ≤ 90) :
    (toLowerA c).toNat = c.toNat + 32 := by
  unfold toLowerA
  rw [dif_pos h]
  rfl

theorem toLowerA_of_not_upper (c : Char) (h : ¬(65 ≤ c.toNat ∧ c.toNat ≤ 90)) :
    toLowerA c = c := by
  unfold toLowerA
  rw [dif_neg h]

theorem toLowerA_lowerAlnum (c : Char) (h : isAsciiAlnumA c = true) :
    isLowerAlnumA (toLowerA c) = true := by
  simp only [isAsciiAlnumA, isAsciiAlphaA, isAsciiUpperA, isAsciiLowerA,
    isAsciiDigitA, Bool.or_eq_true, Bool.and_eq_true, decide_eq_true_eq] at h
  by_cases hu : 65 ≤ c.toNat ∧ c.toNat ≤ 90
  · have ht := toNat_toLowerA_of_upper c hu
    simp only [isLowerAlnumA, isAsciiLowerA, isAsciiDigitA, Bool.or_eq_true,
      Bool.and_eq_true, decide_eq_true_eq, ht]
    omega
  · rw [toLowerA_of_not_upper c hu]
    simp only [isLowerAlnumA, isAsciiLowerA, isAsciiDigitA, Bool.or_eq_true,
      Bool.and_eq_true, decide_eq_true_eq]
    omega

/-- C8: the slug of `"My Cool Post!"` is `mycoolpost`, so the image filename
is `mycoolpost.png`; and in general every character of
`clean_text_for_filename` output is a lower-case ASCII letter or digit. -/
theorem c8_slug_derivation :
    CoverGen.clean_text_for_filename "My Cool Post!".data ++ ".png".data
      = "mycoolpost.png".data ∧
    ∀ t : Str, ∀ c ∈ CoverGen.clean_text_for_filename t,
      isLowerAlnumA c = true := by
  refine ⟨by decide, ?_⟩
  intro t c hc
  unfold CoverGen.clean_text_for_filename at hc
  simp only [List.mem_map] at hc
  obtain ⟨c0, hc0, rfl⟩ := hc
  exact toLowerA_lowerAlnum _ (List.mem_filter.mp hc0).2

/-- Witness for C8's per-character property at a concrete slug character. -/
theorem c8_slug_derivation_witness : isLowerAlnumA 'm' = true :=
  c8_slug_derivation.2 "My Cool Post!".data 'm' (by decide)

/-! ## Claim C9

Models of the Python library calls in `create_image`'s text layout:
`textwrap.wrap` (default options: words split on whitespace, greedy line
filling, over-long words broken into width-sized pieces; hyphen-aware
breaking and filling a partially-filled line with a long word's head are not
modelled) and `str.center` (CPython's left/right padding split). -/

def spaces (n : Nat) : Str := List.replicate n ' '

/-- `str.center(width)`: CPython computes `marg = width - len`, puts
`marg // 2 + (marg & width & 1)` spaces on the left and the rest on the
right. -/
def pyCenter (width : Nat) (s : Str) : Str :=
  if width ≤ s.length then s
  else
    spaces (width - s.length) |> fun _ =>
      spaces ((width - s.length) / 2 + ((width - s.length) &&& width &&& 1))
        ++ s ++
        spaces ((width - s.length) -
          ((width - s.length) / 2 + ((width - s.length) &&& width &&& 1)))

/-- Break a word into pieces of at most `w` characters. -/
def chunksAux (w : Nat) : Nat → Str → List Str
  | _, [] => []
  | 0, _ => []
  | fuel + 1, s => s.take w :: chunksAux w fuel (s.drop w)

def toChunksSized (w : Nat) (s : Str) : List Str := chunksAux w s.length s

/-- Greedy line filling over words already no longer than the width. -/
def greedyLines (w : Nat) : List Str → Str → List Str
  | [], cur => if cur.isEmpty then [] else [cur]
  | word :: rest, cur =>
    if cur.isEmpty then greedyLines w rest word
    else if cur.length + 1 + word.length ≤ w then
      greedyLines w rest (cur ++ ' ' :: word)
    else cur :: greedyLines w rest word

/-- Model of `textwrap.wrap(text, width)` with default options. -/
def pyWrap (w : Nat) (s : Str) : List Str :=
  greedyLines w (((pySplitWs s).map (toChunksSized w)).flatten) []

theorem pyCenter_length (width : Nat) (s : Str) (h : s.length ≤ width) :
    (pyCenter width s).length = width := by
  unfold pyCenter
  by_cases hw : width ≤ s.length
  · rw [if_pos hw]
    omega
  · rw [if_neg hw]
    simp only [spaces, List.length_append, List.length_replicate]
    have hb : (width - s.length) &&& width &&& 1 ≤ 1 := Nat.and_le_right
    omega

theorem chunksAux_le (w fuel : Nat) (s l : Str)
    (hl : l ∈ chunksAux w fuel s) : l.length ≤ w := by
  induction fuel generalizing s with
  | zero => cases s <;> simp [chunksAux] at hl
  | succ f ih =>
    cases s with
    | nil => simp [chunksAux] at hl
    | cons a t =>
      simp only [chunksAux, List.mem_cons] at hl
      rcases hl with h | h
      · subst h
        exact List.length_take_le _ _
      · exact ih _ h

theorem greedyLines_le (w : Nat) (words : List Str) (cur : Str)
    (hw : ∀ x ∈ words, x.length ≤ w) (hc : cur.length ≤ w) :
    ∀ l ∈ greedyLines w words cur, l.length ≤ w := by
  induction words generalizing cur with
  | nil =>
    intro l hl
    simp only [greedyLines] at hl
    split at hl
    · simp at hl
    · simp only [List.mem_singleton] at hl
      subst hl
      exact hc
  | cons word rest ih =>
    intro l hl
    have hword : word.length ≤ w := hw word (List.mem_cons_self _ _)
    have hrest : ∀ x ∈ rest, x.length ≤ w :=
      fun x hx => hw x (List.mem_cons_of_mem _ hx)
    simp only [greedyLines] at hl
    split at hl
    · exact ih word hrest hword l hl
    · split at hl
      · rename_i hfit
        refine ih _ hrest ?_ l hl
        simp only [List.length_append, List.length_cons]
        omega
      · simp only [List.mem_cons] at hl
        rcases hl with h | h
        · subst h; exact hc
        · exact ih word hrest hword l h

theorem pyWrap_le (w : Nat) (s l : Str) (hl : l ∈ pyWrap w s) :
    l.length ≤ w := by
  refine greedyLines_le w _ [] ?_ (by simp) l hl
  intro x hx
  rw [List.mem_flatten] at hx
  obtain ⟨m, hm, hx⟩ := hx
  rw [List.mem_map] at hm
  obtain ⟨wrd, _, rfl⟩ := hm
  exact chunksAux_le _ _ _ _ hx

namespace CoverGen

/-- `title_text` of `create_image`: keep a fully upper-case title, otherwise
title-case it. -/
def cover_title_text (input_text : Str) : Str :=
  if pyIsUpper input_text then input_text else pyTitle input_text

/-- `wrapped_text` of `create_image`: wrap to 32 characters, center-pad each
line to 32, join with a double newline. -/
def cover_wrapped_text (input_text : Str) : Str :=
  List.intercalate "\n\n".data
    ((pyWrap 32 (cover_title_text input_text)).map (pyCenter 32))

end CoverGen

/-- C9: the rendered text block is exactly the double-newline join of the
space-centered wrapped lines of the case-normalized title (kept as-is when
fully upper-case, title-cased otherwise), and every wrapped line is padded to
the full fixed width: each centered line has length exactly 32. -/
theorem c9_cover_text_block :
    (∀ s : Str, CoverGen.cover_wrapped_text s
      = List.intercalate "\n\n".data
          ((pyWrap 32 (if pyIsUpper s then s else pyTitle s)).map
            (pyCenter 32))) ∧
    (∀ (s l : Str), l ∈ pyWrap 32 (CoverGen.cover_title_text s) →
      (pyCenter 32 l).length = 32) := by
  refine ⟨fun s => rfl, fun s l hl => ?_⟩
  exact pyCenter_length _ _ (pyWrap_le 32 _ l hl)

/-- Witness for C9 at a concrete long title and one of its wrapped lines. -/
theorem c9_cover_text_block_witness :
    (pyCenter 32 "Title".data).length = 32 :=
  c9_cover_text_block.2 "this is a somewhat long cover title".data
    "Title".data (by decide)

/-! ## Claim C10

Model of `GithubCommitter.commit_files` / `create_commit_and_push` (identical
in both scripts up to the commit message, a parameter here).  The hosting API
is modelled as a server-side object store; every remote call consults a
failure oracle indexed by a call counter and, on failure, raises a transport
error with no server-side effect.  Fresh object ids come from the counter.
The base64 encoding of binary blobs is the external library parameter
`b64`. -/

abbrev Sha := Nat

inductive GitErr where
  | transport
deriving DecidableEq, Repr

structure GitState where
  counter : Nat
  blobs : List (Sha × Str)
  trees : List (Sha × (List (Str × Sha) × Sha))
  commits : List (Sha × (Str × Sha × List Sha))
  refSha : Sha

def remoteCall (fails : Nat → Bool) (f : GitState → α × GitState)
    (st : GitState) : Except GitErr α × GitState :=
  if fails st.counter then
    (.error .transport, { st with counter := st.counter + 1 })
  else
    let r := f { st with counter := st.counter + 1 }
    (.ok r.1, r.2)

def get_git_ref (fails : Nat → Bool) (st : GitState) :
    Except GitErr Sha × GitState :=
  remoteCall fails (fun s => (s.refSha, s)) st

def create_git_blob (fails : Nat → Bool) (content : Str) (st : GitState) :
    Except GitErr Sha × GitState :=
  remoteCall fails
    (fun s => (s.counter, { s with blobs := s.blobs ++ [(s.counter, content)] }))
    st

def get_git_tree (fails : Nat → Bool) (sha : Sha) (st : GitState) :
    Except GitErr Sha × GitState :=
  remoteCall fails (fun s => (sha, s)) st

def create_git_tree (fails : Nat → Bool) (elems : List (Str × Sha))
    (base : Sha) (st : GitState) : Except GitErr Sha × GitState :=
  remoteCall fails
    (fun s => (s.counter,
      { s with trees := s.trees ++ [(s.counter, (elems, base))] }))
    st

def get_git_commit (fails : Nat → Bool) (sha : Sha) (st : GitState) :
    Except GitErr Sha × GitState :=
  remoteCall fails (fun s => (sha, s)) st

def create_git_commit (fails : Nat → Bool) (msg : Str) (tree : Sha)
    (parents : List Sha) (st : GitState) : Except GitErr Sha × GitState :=
  remoteCall fails
    (fun s => (s.counter,
      { s with commits := s.commits ++ [(s.counter, (msg, tree, parents))] }))
    st

def ref_edit (fails : Nat → Bool) (sha : Sha) (st : GitState) :
    Except GitErr Unit × GitState :=
  remoteCall fails (fun s => ((), { s with refSha := sha })) st

/-- The per-file loop of `commit_files`: one blob per staged file (a `.png`
local path gets base64-encoded content), collecting tree elements (git path
and blob sha).  A staged file is `(gitPath, localPath, content)`. -/
def processFiles (fails : Nat → Bool) (b64 : Str → Str) :
    List (Str × Str × Str) → GitState →
    Except GitErr (List (Str × Sha)) × GitState
  | [], st => (.ok [], st)
  | (gitPath, localPath, content) :: rest, st =>
    match create_git_blob fails
        (if List.isSuffixOf ".png".data localPath then b64 content
         else content) st with
    | (.error e, st1) => (.error e, st1)
    | (.ok bsha, st1) =>
      match processFiles fails b64 rest st1 with
      | (.error e, st2) => (.error e, st2)
      | (.ok elems, st2) => (.ok ((gitPath, bsha) :: elems), st2)

/-- `create_commit_and_push`: fetch the new tree, fetch the branch head
commit, create the commit on top of it, then move the ref. -/
def create_commit_and_push (fails : Nat → Bool) (msg : Str) (branchSha : Sha)
    (newTree : Sha) (st : GitState) : Except GitErr Unit × GitState :=
  match get_git_tree fails newTree st with
  | (.error e, st1) => (.error e, st1)
  | (.ok t, st1) =>
    match get_git_commit fails branchSha st1 with
    | (.error e, st2) => (.error e, st2)
    | (.ok parent, st2) =>
      match create_git_commit fails msg t [parent] st2 with
      | (.error e, st3) => (.error e, st3)
      | (.ok csha, st3) => ref_edit fails csha st3

/-- `GithubCommitter.commit_files`: resolve the branch ref, create the blobs,
create a tree layered on the current head tree, then commit and advance the
ref. -/
def commit_files (fails : Nat → Bool) (b64 : Str → Str) (msg : Str)
    (branchSha : Sha) (files : List (Str × Str × Str)) (st : GitState) :
    Except GitErr Unit × GitState :=
  match get_git_ref fails st with
  | (.error e, st1) => (.error e, st1)
  | (.ok mainSha, st1) =>
    match processFiles fails b64 files st1 with
    | (.error e, st2) => (.error e, st2)
    | (.ok treeList, st2) =>
      match get_git_tree fails mainSha st2 with
      | (.error e, st3) => (.error e, st3)
      | (.ok baseTree, st3) =>
        match create_git_tree fails treeList baseTree st3 with
        | (.error e, st4) => (.error e, st4)
        | (.ok newTree, st4) =>
          create_commit_and_push fails msg branchSha newTree st4

theorem get_git_ref_frame (fails : Nat → Bool) (st : GitState) :
    (get_git_ref fails st).2.refSha = st.refSha ∧
    (get_git_ref fails st).2.commits = st.commits ∧
    (get_git_ref fails st).2.trees = st.trees := by
  unfold get_git_ref remoteCall
  split <;> exact ⟨rfl, rfl, rfl⟩

theorem create_git_blob_frame (fails : Nat → Bool) (c : Str) (st : GitState) :
    (create_git_blob fails c st).2.refSha = st.refSha ∧
    (create_git_blob fails c st).2.commits = st.commits ∧
    (create_git_blob fails c st).2.trees = st.trees := by
  unfold create_git_blob remoteCall
  split <;> exact ⟨rfl, rfl, rfl⟩

theorem get_git_tree_frame (fails : Nat → Bool) (sha : Sha) (st : GitState) :
    (get_git_tree fails sha st).2.refSha = st.refSha ∧
    (get_git_tree fails sha st).2.commits = st.commits ∧
    (get_git_tree fails sha st).2.trees = st.trees := by
  unfold get_git_tree remoteCall
  split <;> exact ⟨rfl, rfl, rfl⟩

theorem get_git_commit_frame (fails : Nat → Bool) (sha : Sha)
    (st : GitState) :
    (get_git_commit fails sha st).2.refSha = st.refSha ∧
    (get_git_commit fails sha st).2.commits = st.commits ∧
    (get_git_commit fails sha st).2.trees = st.trees := by
  unfold get_git_commit remoteCall
  split <;> exact ⟨rfl, rfl, rfl⟩

theorem create_git_tree_frame (fails : Nat → Bool) (elems : List (Str × Sha))
    (base : Sha) (st : GitState) :
    (create_git_tree fails elems base st).2.refSha = st.refSha ∧
    (create_git_tree fails elems base st).2.commits = st.commits := by
  unfold create_git_tree remoteCall
  split <;> exact ⟨rfl, rfl⟩

theorem create_git_commit_frame (fails : Nat → Bool) (msg : Str) (tree : Sha)
    (parents : List Sha) (st : GitState) :
    (create_git_commit fails msg tree parents st).2.refSha = st.refSha := by
  unfold create_git_commit remoteCall
  split <;> rfl

theorem ref_edit_error_frame (fails : Nat → Bool) (sha : Sha) (st : GitState)
    (e : GitErr) (st1 : GitState) (h : ref_edit fails sha st = (.error e, st1)) :
    st1.refSha = st.refSha := by
  unfold ref_edit remoteCall at h
  split at h
  · cases h
    rfl
  · cases h

theorem processFiles_frame (fails : Nat → Bool) (b64 : Str → Str)
    (files : List (Str × Str × Str)) (st : GitState) :
    (processFiles fails b64 files st).2.refSha = st.refSha ∧
    (processFiles fails b64 files st).2.commits = st.commits ∧
    (processFiles fails b64 files st).2.trees = st.trees := by
  induction files generalizing st with
  | nil => exact ⟨rfl, rfl, rfl⟩
  | cons f rest ih =>
    obtain ⟨gp, lp, ct⟩ := f
    simp only [processFiles]
    split
    · rename_i e st1 heq
      have hb := create_git_blob_frame fails
        (if List.isSuffixOf ".png".data lp then b64 ct else ct) st
      rw [heq] at hb
      exact hb
    · rename_i bsha st1 heq
      have hb := create_git_blob_frame fails
        (if List.isSuffixOf ".png".data lp then b64 ct else ct) st
      rw [heq] at hb
      have hr := ih st1
      split
      · rename_i e st2 heq2
        rw [heq2] at hr
        exact ⟨hr.1.trans hb.1, hr.2.1.trans hb.2.1, hr.2.2.trans hb.2.2⟩
      · rename_i elems st2 heq2
        rw [heq2] at hr
        exact ⟨hr.1.trans hb.1, hr.2.1.trans hb.2.1, hr.2.2.trans hb.2.2⟩

theorem create_commit_and_push_error_ref (fails : Nat → Bool) (msg : Str)
    (branchSha newTree : Sha) (st : GitState) (e : GitErr) (st1 : GitState)
    (h : create_commit_and_push fails msg branchSha newTree st
      = (.error e, st1)) :
    st1.refSha = st.refSha := by
  unfold create_commit_and_push at h
  split at h
  · rename_i e0 s0 heq
    cases h
    have := get_git_tree_frame fails newTree st
    rw [heq] at this
    exact this.1
  · rename_i t s0 heq
    have h0 := get_git_tree_frame fails newTree st
    rw [heq] at h0
    split at h
    · rename_i e1 s1 heq1
      cases h
      have := get_git_commit_frame fails branchSha s0
      rw [heq1] at this
      exact this.1.trans h0.1
    · rename_i parent s1 heq1
      have h1 := get_git_commit_frame fails branchSha s0
      rw [heq1] at h1
      split at h
      · rename_i e2 s2 heq2
        cases h
        have := create_git_commit_frame fails msg t [parent] s1
        rw [heq2] at this
        exact (this.trans h1.1).trans h0.1
      · rename_i csha s2 heq2
        have h2 := create_git_commit_frame fails msg t [parent] s1
        rw [heq2] at h2
        have := ref_edit_error_frame fails csha s2 e st1 h
        exact ((this.trans h2).trans h1.1).trans h0.1

/-- The server state after a successful blob creation. -/
def blobStep (st : GitState) (c : Str) : GitState :=
  { st with
    counter := st.counter + 1
    blobs := st.blobs ++ [(st.counter + 1, c)] }

/-- The server state after a successful read-only call. -/
def bumpCounter (st : GitState) : GitState :=
  { st with counter := st.counter + 1 }

theorem processFiles_success (fails : Nat → Bool) (b64 : Str → Str)
    (files : List (Str × Str × Str)) (st : GitState)
    (h : ∀ i, i < files.length → fails (st.counter + i) = false) :
    ∃ elems st2, processFiles fails b64 files st = (.ok elems, st2) ∧
      st2.counter = st.counter + files.length ∧
      st2.commits = st.commits ∧ st2.trees = st.trees ∧
      st2.refSha = st.refSha := by
  induction files generalizing st with
  | nil => exact ⟨[], st, rfl, by simp, rfl, rfl, rfl⟩
  | cons f rest ih =>
    obtain ⟨gp, lp, ct⟩ := f
    have h0 : fails st.counter = false := by
      simpa using h 0 (by simp)
    have hblob : create_git_blob fails
        (if List.isSuffixOf ".png".data lp then b64 ct else ct) st
        = (.ok (st.counter + 1), blobStep st
            (if List.isSuffixOf ".png".data lp then b64 ct else ct)) := by
      unfold create_git_blob remoteCall blobStep
      rw [if_neg (by simp [h0])]
    obtain ⟨elems, st2, hrec, hc, hcm, htr, hrf⟩ := ih
      (blobStep st (if List.isSuffixOf ".png".data lp then b64 ct else ct))
      (fun i hi => by
        show fails (st.counter + 1 + i) = false
        have hx := h (i + 1) (by simpa using Nat.succ_lt_succ hi)
        have he : st.counter + 1 + i = st.counter + (i + 1) := by omega
        rw [he]
        exact hx)
    refine ⟨(gp, st.counter + 1) :: elems, st2, ?_, ?_, hcm, htr, hrf⟩
    · simp only [processFiles, hblob, hrec]
    · rw [hc]
      show st.counter + 1 + rest.length = st.counter + (rest.length + 1)
      omega

/-- C10: if the tree-creation API call fails, the run aborts with the
transport error, no commit object is created, and the branch ref is
unchanged from its pre-run value; and, in general, whenever the run ends in
an error — any blob, tree, or commit call having failed — the branch ref is
unchanged, so the ref is advanced only after every call has succeeded. -/
theorem c10_commit_atomicity :
    (∀ (fails : Nat → Bool) (b64 : Str → Str) (msg : Str) (branchSha : Sha)
        (files : List (Str × Str × Str)) (st : GitState),
      (∀ i, i ≤ files.length + 1 → fails (st.counter + i) = false) →
      fails (st.counter + (files.length + 2)) = true →
      (commit_files fails b64 msg branchSha files st).1
        = .error .transport ∧
      (commit_files fails b64 msg branchSha files st).2.commits
        = st.commits ∧
      (commit_files fails b64 msg branchSha files st).2.refSha
        = st.refSha) ∧
    (∀ (fails : Nat → Bool) (b64 : Str → Str) (msg : Str) (branchSha : Sha)
        (files : List (Str × Str × Str)) (st : GitState) (e : GitErr)
        (st1 : GitState),
      commit_files fails b64 msg branchSha files st = (.error e, st1) →
      st1.refSha = st.refSha) := by
  constructor
  · intro fails b64 msg branchSha files st h1 h2
    have h0 : fails st.counter = false := by
      simpa using h1 0 (by omega)
    have href : get_git_ref fails st = (.ok st.refSha, bumpCounter st) := by
      unfold get_git_ref remoteCall bumpCounter
      rw [if_neg (by simp [h0])]
    obtain ⟨elems, st2, hrec, hc, hcm, htr, hrf⟩ :=
      processFiles_success fails b64 files (bumpCounter st)
        (fun i hi => by
          show fails (st.counter + 1 + i) = false
          have hx := h1 (i + 1) (by omega)
          have he : st.counter + 1 + i = st.counter + (i + 1) := by omega
          rw [he]
          exact hx)
    have hc2 : st2.counter = st.counter + 1 + files.length := hc
    have hgt : fails st2.counter = false := by
      rw [hc2]
      have hx := h1 (files.length + 1) (by omega)
      have he : st.counter + 1 + files.length
          = st.counter + (files.length + 1) := by omega
      rw [he]
      exact hx
    have htree : get_git_tree fails st.refSha st2
        = (.ok st.refSha, bumpCounter st2) := by
      unfold get_git_tree remoteCall bumpCounter
      rw [if_neg (by simp [hgt])]
    have hct : fails (st2.counter + 1) = true := by
      have he : st2.counter + 1 = st.counter + (files.length + 2) := by
        rw [hc2]
        omega
      rw [he]
      exact h2
    have hctree : create_git_tree fails elems st.refSha (bumpCounter st2)
        = (.error .transport, bumpCounter (bumpCounter st2)) := by
      unfold create_git_tree remoteCall bumpCounter
      simp only [hct, if_true]
    have hcf : commit_files fails b64 msg branchSha files st
        = (.error .transport, bumpCounter (bumpCounter st2)) := by
      simp only [commit_files, href, hrec, htree, hctree]
    rw [hcf]
    exact ⟨rfl, hcm, hrf⟩
  · intro fails b64 msg branchSha files st e st1 h
    unfold commit_files at h
    split at h
    · rename_i e0 s heq
      cases h
      have := get_git_ref_frame fails st
      rw [heq] at this
      exact this.1
    · rename_i mainSha s1 heq
      have hf1 := get_git_ref_frame fails st
      rw [heq] at hf1
      split at h
      · rename_i e0 s2 heq2
        cases h
        have := processFiles_frame fails b64 files s1
        rw [heq2] at this
        exact this.1.trans hf1.1
      · rename_i treeList s2 heq2
        have hf2 := processFiles_frame fails b64 files s1
        rw [heq2] at hf2
        split at h
        · rename_i e0 s3 heq3
          cases h
          have := get_git_tree_frame fails mainSha s2
          rw [heq3] at this
          exact (this.1.trans hf2.1).trans hf1.1
        · rename_i baseTree s3 heq3
          have hf3 := get_git_tree_frame fails mainSha s2
          rw [heq3] at hf3
          split at h
          · rename_i e0 s4 heq4
            cases h
            have := create_git_tree_frame fails treeList baseTree s3
            rw [heq4] at this
            exact ((this.1.trans hf3.1).trans hf2.1).trans hf1.1
          · rename_i newTree s4 heq4
            have hf4 := create_git_tree_frame fails treeList baseTree s3
            rw [heq4] at hf4
            have hcc := create_commit_and_push_error_ref fails msg branchSha
              newTree s4 e st1 h
            exact (((hcc.trans hf4.1).trans hf3.1).trans hf2.1).trans hf1.1

/-- Witness for C10: one staged file, the tree-creation call (index 3)
fails; the run errors, no commit exists, and the ref still points at 7. -/
theorem c10_commit_atomicity_witness :
    (commit_files (fun i => decide (i = 3)) (fun s => s) "m".data 5
      [("a.md".data, "tmp/a.md".data, "x".data)]
      ⟨0, [], [], [], 7⟩).1 = .error .transport ∧
    (commit_files (fun i => decide (i = 3)) (fun s => s) "m".data 5
      [("a.md".data, "tmp/a.md".data, "x".data)]
      ⟨0, [], [], [], 7⟩).2.commits = [] ∧
    (commit_files (fun i => decide (i = 3)) (fun s => s) "m".data 5
      [("a.md".data, "tmp/a.md".data, "x".data)]
      ⟨0, [], [], [], 7⟩).2.refSha = 7 :=
  c10_commit_atomicity.1 (fun i => decide (i = 3)) (fun s => s) "m".data 5
    [("a.md".data, "tmp/a.md".data, "x".data)] ⟨0, [], [], [], 7⟩
    (by decide) (by decide)
